import Mathlib

/-!
Shallow embedding of the trassenger secure-delivery core.

Byte sequences are modelled as `List Nat` (each element one byte).  Strings on
the wire (base64 text, hex text) keep their `String` type where the repository
manipulates them as strings; where a string is only carried opaquely as bytes
it is modelled as `List Nat` directly.

Third-party crates used by `src/crypto.rs` (x25519-dalek, chacha20poly1305,
ed25519-dalek, sha2, base64, serde_json) are not part of this repository; they
are modelled as an abstract bundle `Prims` of functions together with the laws
those crates document (Diffie–Hellman shared-secret agreement, AEAD
decrypt-of-encrypt, signature verify-of-sign, base64 decode-of-encode).  All
code of the repository itself (envelope assembly, envelope opening, the hex
codec behaviour, the conversation-id derivation, the polling disposition loop,
the IPC command handlers, the storage upserts) is translated directly from the
source files.
-/

namespace Trassenger

/-- Bytes are lists of naturals; every byte produced by the model stays below
256 but the operations themselves are length/position based so no modular
arithmetic is needed. -/
abbrev Bytes := List Nat

/-- Abstract model of the external cryptographic / serialization crates used by
`src/crypto.rs`, `src/daemon/src/ipc.rs` and `src/daemon/src/polling.rs`.
Each law is the documented contract of the corresponding crate. -/
structure Prims where
  /-- x25519: public key derived from a secret key. -/
  pkOfEncrypt : Bytes → Bytes
  /-- x25519 `diffie_hellman sk pk`. -/
  dh : Bytes → Bytes → Bytes
  /-- XChaCha20-Poly1305 `encrypt key nonce plaintext`. -/
  aeadEnc : Bytes → Bytes → Bytes → Bytes
  /-- XChaCha20-Poly1305 `decrypt key nonce ciphertext` (none on tag mismatch). -/
  aeadDec : Bytes → Bytes → Bytes → Option Bytes
  /-- ed25519 verifying key derived from a signing key. -/
  pkOfSign : Bytes → Bytes
  /-- ed25519 `sign sk msg` (the detached 64-byte signature). -/
  edSign : Bytes → Bytes → Bytes
  /-- ed25519 `verify pk sig msg`. -/
  edVerify : Bytes → Bytes → Bytes → Bool
  /-- ed25519 `VerifyingKey::from_bytes` success predicate. -/
  vkValid : Bytes → Bool
  /-- base64 STANDARD encoding (the resulting text is modelled by its bytes). -/
  b64encode : Bytes → Bytes
  /-- base64 STANDARD decoding. -/
  b64decode : Bytes → Option Bytes
  /-- sha2 `Sha256` digest of a string's UTF-8 bytes. -/
  sha256 : String → Bytes
  /-- DH agreement: both parties derive the same shared secret. -/
  dh_comm : ∀ sk1 sk2, dh sk1 (pkOfEncrypt sk2) = dh sk2 (pkOfEncrypt sk1)
  /-- AEAD decryption inverts encryption under the same key and nonce. -/
  aead_roundtrip : ∀ k n pt, aeadDec k n (aeadEnc k n pt) = some pt
  /-- ed25519 signatures are 64 bytes. -/
  edSign_length : ∀ sk m, (edSign sk m).length = 64
  /-- A signature made with `sk` verifies under the matching public key. -/
  edVerify_edSign : ∀ sk m, edVerify (pkOfSign sk) (edSign sk m) m = true
  /-- A derived verifying key parses back successfully. -/
  vkValid_pkOfSign : ∀ sk, vkValid (pkOfSign sk) = true
  /-- base64 decoding inverts encoding. -/
  b64_roundtrip : ∀ bs, b64decode (b64encode bs) = some bs

/-- `src/src/crypto.rs` `Keypair`. -/
structure Keypair where
  encrypt_pk : Bytes
  encrypt_sk : Bytes
  sign_pk : Bytes
  sign_sk : Bytes
deriving DecidableEq

/-- `src/src/crypto.rs::encrypt_message`.  The randomly generated 24-byte nonce
is passed explicitly (the source draws it from `OsRng`). -/
def encrypt_message (P : Prims) (nonce : Bytes) (plaintext recipient_pk sender_sk : Bytes) :
    Except String Bytes :=
  if recipient_pk.length ≠ 32 then .error "Invalid recipient public key length"
  else if sender_sk.length ≠ 32 then .error "Invalid sender secret key length"
  else
    let shared_secret := P.dh sender_sk recipient_pk
    let ciphertext := P.aeadEnc shared_secret nonce plaintext
    .ok (nonce ++ ciphertext)

/-- `src/src/crypto.rs::decrypt_message`. -/
def decrypt_message (P : Prims) (ciphertext sender_pk recipient_sk : Bytes) :
    Except String Bytes :=
  if ciphertext.length < 24 then .error "Invalid ciphertext: too short"
  else if sender_pk.length ≠ 32 then .error "Invalid sender public key length"
  else if recipient_sk.length ≠ 32 then .error "Invalid recipient secret key length"
  else
    let shared_secret := P.dh recipient_sk sender_pk
    let nonce := ciphertext.take 24
    let sealed := ciphertext.drop 24
    match P.aeadDec shared_secret nonce sealed with
    | some pt => .ok pt
    | none => .error "Decryption failed"

/-- `src/src/crypto.rs::sign_message`: returns `signature ++ message`. -/
def sign_message (P : Prims) (message sign_sk : Bytes) : Except String Bytes :=
  if sign_sk.length ≠ 32 then .error "Invalid signing secret key length"
  else .ok (P.edSign sign_sk message ++ message)

/-- `src/src/crypto.rs::verify_signature`: splits a 64-byte signature off the
front and returns the message when the signature verifies. -/
def verify_signature (P : Prims) (signed_message sign_pk : Bytes) : Except String Bytes :=
  if signed_message.length < 64 then .error "Invalid signed message: too short"
  else if sign_pk.length ≠ 32 then .error "Invalid signing public key length"
  else if P.vkValid sign_pk = false then .error "Invalid public key"
  else
    let signature := signed_message.take 64
    let message := signed_message.drop 64
    if P.edVerify sign_pk signature message then .ok message
    else .error "Signature verification failed"

/-- Lower-case hex digit for a value below 16 (hex crate encoding). -/
def hexDigitChar (n : Nat) : Char :=
  if n < 10 then Char.ofNat (48 + n) else Char.ofNat (87 + n)

/-- `src/src/crypto.rs::to_hex` (hex::encode): two lower-case digits per byte. -/
def to_hex (bytes : Bytes) : String :=
  String.mk (bytes.flatMap fun b => [hexDigitChar (b / 16 % 16), hexDigitChar (b % 16)])

/-- Value of a hex digit character, none if the character is not a hex digit. -/
def hexDigitVal (c : Char) : Option Nat :=
  if 48 ≤ c.toNat ∧ c.toNat ≤ 57 then some (c.toNat - 48)
  else if 97 ≤ c.toNat ∧ c.toNat ≤ 102 then some (c.toNat - 87)
  else if 65 ≤ c.toNat ∧ c.toNat ≤ 70 then some (c.toNat - 55)
  else none

/-- hex::decode on a character list: pairs of hex digits, errors on odd length
or a non-hex character. -/
def from_hexChars : List Char → Except String Bytes
  | [] => .ok []
  | [_] => .error "Invalid hex: Odd number of digits"
  | c1 :: c2 :: rest =>
    match hexDigitVal c1, hexDigitVal c2 with
    | some hi, some lo => (from_hexChars rest).map fun bs => (16 * hi + lo) :: bs
    | _, _ => .error "Invalid hex: Invalid character"

/-- `src/src/crypto.rs::from_hex` (hex::decode). -/
def from_hex (s : String) : Except String Bytes :=
  from_hexChars s.data

/-- `src/src/crypto.rs::generate_conversation_queue_id`: sort the two hex
strings, concatenate min‖max, SHA-256, keep the first 16 bytes, hex encode. -/
def generate_conversation_queue_id (P : Prims) (pk1_hex pk2_hex : String) :
    Except String String :=
  let sorted := if pk1_hex < pk2_hex then (pk1_hex, pk2_hex) else (pk2_hex, pk1_hex)
  let combined := sorted.1 ++ sorted.2
  let hash := P.sha256 combined
  .ok (to_hex (hash.take 16))

/-- `src/tui/src/storage.rs` `Message`. -/
structure Message where
  id : String
  queue_id : String
  sender : String
  content : String
  timestamp : Int
  msg_type : String
  status : String
  is_outbound : Bool
deriving DecidableEq

/-- `src/tui/src/storage.rs` `Peer`. -/
structure Peer where
  name : String
  encrypt_pk : String
  sign_pk : String
  queue_id : String
deriving DecidableEq

/-- `src/src/mailbox.rs` `ServerMessage`: one fetched relay blob; `data` is the
base64 text, modelled by its bytes. -/
structure ServerMessage where
  id : String
  data : Bytes
deriving DecidableEq

/-- Abstract model of `serde_json::from_slice` on a received payload
(`src/daemon/src/polling.rs::process_message` lines 244-253): the parse either
fails or yields a JSON object whose relevant fields may each be absent. -/
structure PayloadJson where
  content : Option String
  timestamp : Option Int
  sender_id : Option String
  msg_type : Option String
deriving DecidableEq

/-- `src/tui/src/storage.rs::save_message`: SQLite
`INSERT OR REPLACE ... (id TEXT PRIMARY KEY, ...)` — the row with the same id
is replaced.  The table is modelled as a list of rows. -/
def save_message (db : List Message) (m : Message) : List Message :=
  db.filter (fun x => x.id != m.id) ++ [m]

/-- `src/tui/src/storage.rs::save_peer`: drop any existing peer with the same
name, then append the new peer, and write the whole list back. -/
def save_peer (peers : List Peer) (p : Peer) : List Peer :=
  peers.filter (fun q => q.name != p.name) ++ [p]

/-- Envelope assembly from `src/daemon/src/ipc.rs::handle_send_message` lines
462-475: `sign_pk ‖ signature ‖ encrypt_pk ‖ nonce ‖ ciphertext+tag`. -/
def seal_envelope (P : Prims) (kp : Keypair) (recipient_encrypt_pk nonce payload_bytes : Bytes) :
    Except String Bytes := do
  let encrypted ← encrypt_message P nonce payload_bytes recipient_encrypt_pk kp.encrypt_sk
  let message_to_sign := kp.encrypt_pk ++ encrypted
  let signed ← sign_message P message_to_sign kp.sign_sk
  .ok (kp.sign_pk ++ signed)

/-- The crypto portion of `src/daemon/src/polling.rs::process_message` (lines
220-242): base64 decode, length check, own-message check, signature
verification, key split, decryption; returns the plaintext bytes. -/
def open_envelope (P : Prims) (data : Bytes) (kp : Keypair) : Except String Bytes :=
  match P.b64decode data with
  | none => .error "base64 decode"
  | some full_message =>
    if full_message.length < 32 then .error "Message too short"
    else
      let sender_sign_pk := full_message.take 32
      let signed_message := full_message.drop 32
      if sender_sign_pk = kp.sign_pk then .error "Skipping own message"
      else do
        let unsigned ← verify_signature P signed_message sender_sign_pk
        if unsigned.length < 32 then .error "Unsigned message too short"
        else
          let sender_encrypt_pk := unsigned.take 32
          let ciphertext := unsigned.drop 32
          decrypt_message P ciphertext sender_encrypt_pk kp.encrypt_sk

/-- `src/daemon/src/polling.rs::process_message`: open the envelope, parse the
JSON payload, build the inbound `Message` with status `delivered`.  The JSON
parser is abstract (`parsePayload`), mirroring serde_json. -/
def process_message (P : Prims) (parsePayload : Bytes → Option PayloadJson)
    (server_msg : ServerMessage) (queue_id : String) (kp : Keypair) :
    Except String Message := do
  let plaintext ← open_envelope P server_msg.data kp
  match parsePayload plaintext with
  | none => .error "JSON parse"
  | some payload =>
    match payload.content with
    | none => .error "Missing content"
    | some content =>
      match payload.timestamp with
      | none => .error "Missing timestamp"
      | some ts =>
        let timestamp := if ts > 9999999999 then ts / 1000 else ts
        match payload.sender_id with
        | none => .error "Missing sender_id"
        | some sender_id =>
          let msg_type := payload.msg_type.getD "text"
          .ok { id := server_msg.id, queue_id := queue_id, sender := sender_id,
                content := content, timestamp := timestamp, msg_type := msg_type,
                status := "delivered", is_outbound := false }

/-- Rust `str::contains` (substring search), used by `poll_queue`'s error
dispatch `e.contains("Skipping own message")`. -/
def strContains (s pat : String) : Bool :=
  s.data.tails.any fun t => pat.data.isPrefixOf t

/-- Observable side effects of one `poll_queue` iteration
(`src/daemon/src/polling.rs` lines 182-209): persisting a message locally,
pushing it to the TUI, deleting the source blob on the relay. -/
inductive RelayAction where
  | save : Message → RelayAction
  | push : Message → RelayAction
  | delete : String → RelayAction
deriving DecidableEq

/-- Disposition of a single fetched blob, from the `match` in `poll_queue`
lines 184-208.  `saveOk` models whether `init_message_db().and_then(save_message)`
succeeds.  Returns the emitted effects and the contribution to `count`. -/
def process_one (P : Prims) (parsePayload : Bytes → Option PayloadJson)
    (saveOk : Message → Bool) (queue_id : String) (kp : Keypair)
    (msg : ServerMessage) : List RelayAction × Nat :=
  match process_message P parsePayload msg queue_id kp with
  | .ok message =>
    if saveOk message then
      ([.save message, .push message, .delete msg.id], 1)
    else ([], 0)
  | .error e =>
    if strContains e "Skipping own message" then ([], 0)
    else ([], 0)

/-- The `for msg in &messages` loop of `poll_queue`: every blob is processed;
a failure on one blob never aborts the rest. -/
def poll_queue_run (P : Prims) (parsePayload : Bytes → Option PayloadJson)
    (saveOk : Message → Bool) (queue_id : String) (kp : Keypair) :
    List ServerMessage → List RelayAction × Nat
  | [] => ([], 0)
  | msg :: rest =>
    let r := process_one P parsePayload saveOk queue_id kp msg
    let rs := poll_queue_run P parsePayload saveOk queue_id kp rest
    (r.1 ++ rs.1, r.2 + rs.2)

/-- `src/daemon/src/polling.rs` `AdaptiveInterval` (lines 13-36), modelled
functionally: each mutating method returns the updated value. -/
structure AdaptiveInterval where
  current_secs : Nat
  min_secs : Nat
  max_secs : Nat
deriving DecidableEq

namespace AdaptiveInterval

/-- `AdaptiveInterval::new`. -/
def new (min_secs max_secs : Nat) : AdaptiveInterval :=
  { current_secs := min_secs, min_secs := min_secs, max_secs := max_secs }

/-- `AdaptiveInterval::reset`. -/
def reset (a : AdaptiveInterval) : AdaptiveInterval :=
  { a with current_secs := a.min_secs }

/-- `AdaptiveInterval::increase`: double, capped at the maximum. -/
def increase (a : AdaptiveInterval) : AdaptiveInterval :=
  { a with current_secs := Nat.min (a.current_secs * 2) a.max_secs }

/-- `AdaptiveInterval::get`. -/
def get (a : AdaptiveInterval) : Nat :=
  a.current_secs

end AdaptiveInterval

/-- A sequence of the two mutating operations on an `AdaptiveInterval`. -/
inductive IntervalOp where
  | resetOp : IntervalOp
  | increaseOp : IntervalOp
deriving DecidableEq

/-- Apply one operation. -/
def applyIntervalOp (a : AdaptiveInterval) : IntervalOp → AdaptiveInterval
  | .resetOp => a.reset
  | .increaseOp => a.increase

/-- Apply a sequence of operations left to right. -/
def applyIntervalOps (a : AdaptiveInterval) : List IntervalOp → AdaptiveInterval
  | [] => a
  | op :: rest => applyIntervalOps (applyIntervalOp a op) rest

/-- `src/daemon/src/ipc.rs` `DaemonEvent`: events pushed to the TUI. -/
inductive DaemonEventE where
  | newMessage : Message → DaemonEventE
  | messagesEv : String → List Message → DaemonEventE
  | peersEv : List Peer → DaemonEventE
  | contactImported : Peer → DaemonEventE
  | contactExported : String → DaemonEventE
  | messageSent : DaemonEventE
  | pollingInterval : Nat → DaemonEventE
  | errorEv : String → DaemonEventE
deriving DecidableEq

/-- The polling-loop state relevant to session attach
(`src/daemon/src/polling.rs::polling_loop` locals, lines 90-93). -/
structure PollLoopState where
  tui_connected : Bool
  fast_interval : AdaptiveInterval
  unread : Nat
deriving DecidableEq

/-- Events delivered to a freshly attached session, and the polling-loop state
after the attach, combining the accept-path push of `ipc_accept_loop`
(`src/daemon/src/ipc.rs` lines 158-165, sending `IpcState.current_interval_secs`)
with the polling loop's handling of `IpcSignal::TuiConnected`
(`src/daemon/src/polling.rs` lines 124-132).  The embedding takes the
interleaving in which the polling thread consumes the signal after the accept
loop has registered the session's event sender, so both pushes reach the
session. -/
def session_attach (ipc_current_interval_secs : Nat) (s : PollLoopState) :
    PollLoopState × List DaemonEventE :=
  let s1 : PollLoopState :=
    { tui_connected := true, unread := 0, fast_interval := s.fast_interval.reset }
  (s1, [.pollingInterval ipc_current_interval_secs, .pollingInterval s1.fast_interval.get])

/-- Result of `handle_send_message`: events returned to the session, the
message persisted before returning (if any), and the detached relay-post task
spawned (if any). -/
structure SendTask where
  msgId : String
  queueId : String
  encoded : Bytes
deriving DecidableEq

/-- A status update executed against the local store. -/
structure StatusUpdate where
  id : String
  status : String
deriving DecidableEq

/-- The body of the `tokio::spawn` in `handle_send_message` (lines 505-528):
given the relay post outcome it updates the message status and emits no
protocol event. -/
def send_task_complete (t : SendTask) (postOk : Bool) :
    StatusUpdate × List DaemonEventE :=
  ({ id := t.msgId, status := if postOk then "sent" else "failed" }, [])

structure SendResult where
  events : List DaemonEventE
  savedMsg : Option Message
  task : Option SendTask
deriving DecidableEq

/-- `src/daemon/src/ipc.rs::handle_send_message` (lines 421-532).
`payloadBytes` models `serde_json::to_vec` of the
`{type, content, timestamp, sender_id}` object; `dbSaveOk` models success of
the synchronous local save; `nonce` is the AEAD nonce drawn inside
`encrypt_message`; `local_id` is the freshly generated UUID.  The detached
relay post is returned as a `SendTask` rather than executed, reflecting that
the handler returns before any network call. -/
def handle_send_message (P : Prims)
    (payloadBytes : String → Int → String → Option Bytes)
    (dbSaveOk : Message → Bool)
    (queue_id plaintext peer_encrypt_pk : String)
    (keypair : Option Keypair) (timestamp : Int) (nonce : Bytes)
    (local_id : String) : SendResult :=
  match keypair with
  | none => { events := [.errorEv "Keypair not loaded"], savedMsg := none, task := none }
  | some kp =>
    match from_hex peer_encrypt_pk with
    | .error e =>
      { events := [.errorEv ("Invalid peer_encrypt_pk: " ++ e)], savedMsg := none, task := none }
    | .ok recipient_encrypt_pk =>
      match payloadBytes plaintext timestamp (to_hex kp.encrypt_pk) with
      | none => { events := [.errorEv "Serialize payload"], savedMsg := none, task := none }
      | some payload_bytes =>
        match encrypt_message P nonce payload_bytes recipient_encrypt_pk kp.encrypt_sk with
        | .error e =>
          { events := [.errorEv ("Encrypt: " ++ e)], savedMsg := none, task := none }
        | .ok encrypted =>
          let message_to_sign := kp.encrypt_pk ++ encrypted
          match sign_message P message_to_sign kp.sign_sk with
          | .error e =>
            { events := [.errorEv ("Sign: " ++ e)], savedMsg := none, task := none }
          | .ok signed =>
            let final_message := kp.sign_pk ++ signed
            let encoded := P.b64encode final_message
            let local_message : Message :=
              { id := local_id, queue_id := queue_id, sender := "You",
                content := plaintext, timestamp := timestamp, msg_type := "text",
                status := "sending", is_outbound := true }
            if dbSaveOk local_message then
              { events := [.messageSent], savedMsg := some local_message,
                task := some { msgId := local_id, queueId := queue_id, encoded := encoded } }
            else
              { events := [.errorEv "Failed to save message to DB"],
                savedMsg := none, task := none }

/-- Abstract result of `serde_json::from_str` on the ImportContact JSON: the
parse either fails or yields an object whose three relevant fields may each be
absent (`contact_data["..."].as_str()`). -/
structure ContactJson where
  name : Option String
  encrypt_pk : Option String
  sign_pk : Option String
deriving DecidableEq

structure ImportResult where
  events : List DaemonEventE
  newPeers : List Peer
deriving DecidableEq

/-- `src/daemon/src/ipc.rs::handle_import_contact` (lines 534-600).  `parsed`
is the serde parse result, `peers` the current peers.json content, `fsOk`
whether the peers.json write succeeds.  On any error the peer list is
unchanged. -/
def handle_import_contact (P : Prims) (parsed : Option ContactJson)
    (keypair : Option Keypair) (peers : List Peer) (fsOk : Bool) : ImportResult :=
  match parsed with
  | none => { events := [.errorEv "Invalid JSON"], newPeers := peers }
  | some contact_data =>
    match contact_data.name with
    | none => { events := [.errorEv "Missing 'name' field"], newPeers := peers }
    | some name =>
      match contact_data.encrypt_pk with
      | none => { events := [.errorEv "Missing 'encrypt_pk' field"], newPeers := peers }
      | some encrypt_pk =>
        match contact_data.sign_pk with
        | none => { events := [.errorEv "Missing 'sign_pk' field"], newPeers := peers }
        | some sign_pk =>
          match from_hex encrypt_pk with
          | .error e =>
            { events := [.errorEv ("Invalid encrypt_pk: " ++ e)], newPeers := peers }
          | .ok _ =>
            match from_hex sign_pk with
            | .error e =>
              { events := [.errorEv ("Invalid sign_pk: " ++ e)], newPeers := peers }
            | .ok _ =>
              let my_encrypt_pk := keypair.map fun kp => to_hex kp.encrypt_pk
              if my_encrypt_pk = some encrypt_pk then
                { events := [.errorEv "Cannot import your own contact"], newPeers := peers }
              else if peers.any fun p => p.encrypt_pk == encrypt_pk then
                { events := [.errorEv "Contact already exists"], newPeers := peers }
              else
                let my_pk_hex := my_encrypt_pk.getD ""
                match generate_conversation_queue_id P my_pk_hex encrypt_pk with
                | .error e =>
                  { events := [.errorEv ("Queue ID error: " ++ e)], newPeers := peers }
                | .ok queue_id =>
                  let peer : Peer :=
                    { name := name, encrypt_pk := encrypt_pk, sign_pk := sign_pk,
                      queue_id := queue_id }
                  if fsOk then
                    { events := [.contactImported peer], newPeers := save_peer peers peer }
                  else
                    { events := [.errorEv "Save peer failed"], newPeers := peers }

/-- Definitional form of the queue id produced by
`generate_conversation_queue_id` (which always returns `Ok`). -/
def conversation_queue_id_val (P : Prims) (pk1_hex pk2_hex : String) : String :=
  let sorted := if pk1_hex < pk2_hex then (pk1_hex, pk2_hex) else (pk2_hex, pk1_hex)
  to_hex ((P.sha256 (sorted.1 ++ sorted.2)).take 16)

/-- A concrete executable instantiation of the external-crate model, used to
evaluate the theorems on concrete inputs.  Keys act as their own public
halves, the shared secret is the pointwise sum of the two secret keys, the
AEAD shifts every byte by a key-and-nonce offset, and a signature is 64 copies
of a checksum. -/
def toyPrims : Prims where
  pkOfEncrypt := id
  dh := fun a b => List.zipWith (· + ·) a b
  aeadEnc := fun k n pt => pt.map fun b => b + (k.sum + n.sum)
  aeadDec := fun k n ct => some (ct.map fun b => b - (k.sum + n.sum))
  pkOfSign := id
  edSign := fun sk m => List.replicate 64 (sk.sum + m.sum)
  edVerify := fun pk sig m => sig == List.replicate 64 (pk.sum + m.sum)
  vkValid := fun _ => true
  b64encode := id
  b64decode := some
  sha256 := fun s => s.data.map Char.toNat
  dh_comm := by
    intro sk1 sk2
    simp only [id]
    induction sk1 generalizing sk2 with
    | nil => cases sk2 <;> simp [List.zipWith]
    | cons a as ih =>
      cases sk2 with
      | nil => simp [List.zipWith]
      | cons b bs => simp [List.zipWith, Nat.add_comm, ih]
  aead_roundtrip := by
    intro k n pt
    simp [List.map_map, Function.comp_def]
  edSign_length := by intro sk m; simp
  edVerify_edSign := by intro sk m; simp [id]
  vkValid_pkOfSign := by intro sk; rfl
  b64_roundtrip := by intro bs; rfl

/-- Concrete identity A for evaluation. -/
def kpA : Keypair :=
  { encrypt_pk := List.replicate 32 1, encrypt_sk := List.replicate 32 1,
    sign_pk := List.replicate 32 3, sign_sk := List.replicate 32 3 }

/-- Concrete identity B for evaluation. -/
def kpB : Keypair :=
  { encrypt_pk := List.replicate 32 2, encrypt_sk := List.replicate 32 2,
    sign_pk := List.replicate 32 4, sign_sk := List.replicate 32 4 }

/-- Concrete 24-byte nonce for evaluation. -/
def nonceW : Bytes := List.replicate 24 5

/-- Concrete plaintext bytes for evaluation. -/
def ptW : Bytes := [7, 8, 9]

/-- Concrete polling-loop state for evaluation: the adaptive interval has
backed off to 20 seconds, three messages are unread. -/
def pollStateEx : PollLoopState :=
  { tui_connected := false,
    fast_interval := { current_secs := 20, min_secs := 5, max_secs := 60 },
    unread := 3 }

/-- A trivially successful payload serializer for evaluation. -/
def payloadBytesW : String → Int → String → Option Bytes :=
  fun _ _ _ => some [1, 2, 3]

/-- A payload parser for evaluation that always yields a well-formed object. -/
def parsePayloadW : Bytes → Option PayloadJson :=
  fun _ => some { content := some "hi", timestamp := some 1,
                  sender_id := some "peer", msg_type := none }

/-- Peer key (64 hex zeros) used in concrete evaluations. -/
def peerPkHexW : String := String.mk (List.replicate 64 '0')

/-- Concrete parsed contact JSON for evaluation. -/
def contactW : ContactJson :=
  { name := some "Bob", encrypt_pk := some "00ff", sign_pk := some "ab" }

/-- Concrete pre-existing peer (same name, different key) for evaluation. -/
def peerOldW : Peer :=
  { name := "Bob", encrypt_pk := "11", sign_pk := "22", queue_id := "z" }

/-- The validation conditions of `handle_import_contact`, stated from the
claim: the JSON parses, the three fields are present, both keys are
well-formed hex, the encryption key is not the local identity's own, and no
existing peer already has that encryption key. -/
def importValid (kp : Keypair) (peers : List Peer) (parsed : Option ContactJson) : Prop :=
  ∃ c n e s, parsed = some c ∧ c.name = some n ∧ c.encrypt_pk = some e ∧
    c.sign_pk = some s ∧ (∃ bs, from_hex e = .ok bs) ∧ (∃ bs, from_hex s = .ok bs) ∧
    e ≠ to_hex kp.encrypt_pk ∧ ∀ p ∈ peers, p.encrypt_pk ≠ e

/-- The outbound `local_message` record built by `handle_send_message`
(lines 483-492). -/
def outbound_message (local_id queue_id plaintext : String) (timestamp : Int) : Message :=
  { id := local_id, queue_id := queue_id, sender := "You", content := plaintext,
    timestamp := timestamp, msg_type := "text", status := "sending",
    is_outbound := true }

-- ── Helper lemmas ────────────────────────────────────────────────────────────

theorem take_append_len {α : Type} {l1 : List α} (l2 : List α) {n : Nat}
    (h : l1.length = n) : (l1 ++ l2).take n = l1 := by
  subst h
  simp

theorem drop_append_len {α : Type} {l1 : List α} (l2 : List α) {n : Nat}
    (h : l1.length = n) : (l1 ++ l2).drop n = l2 := by
  subst h
  simp

theorem applyIntervalOps_bounds (ops : List IntervalOp) :
    ∀ a : AdaptiveInterval, a.min_secs = 5 → a.max_secs = 60 →
      5 ≤ a.current_secs → a.current_secs ≤ 60 →
      (applyIntervalOps a ops).min_secs = 5 ∧ (applyIntervalOps a ops).max_secs = 60 ∧
      5 ≤ (applyIntervalOps a ops).current_secs ∧
      (applyIntervalOps a ops).current_secs ≤ 60 := by
  induction ops with
  | nil => exact fun a h1 h2 h3 h4 => ⟨h1, h2, h3, h4⟩
  | cons op rest ih =>
    intro a h1 h2 h3 h4
    cases op with
    | resetOp =>
      exact ih a.reset h1 h2 (by simp [AdaptiveInterval.reset, h1])
        (by simp [AdaptiveInterval.reset, h1])
    | increaseOp =>
      refine ih a.increase h1 h2 ?_ ?_
      · simp only [AdaptiveInterval.increase, h2]
        exact Nat.le_min.mpr ⟨by omega, by omega⟩
      · simp only [AdaptiveInterval.increase, h2]
        exact Nat.min_le_right _ _

-- ── C5: adaptive interval semantics ──────────────────────────────────────────

/-- C5: for `AdaptiveInterval::new(5, 60)`, `reset` sets the current value to
5, consecutive `increase` calls yield 10, 20, 40 and then 60 (capped), `reset`
after any operation sequence returns to 5, and after every sequence of
reset/increase operations the invariant `5 ≤ current ≤ 60` holds. -/
theorem adaptive_interval_claim :
    (AdaptiveInterval.new 5 60).reset.get = 5 ∧
    (AdaptiveInterval.new 5 60).increase.get = 10 ∧
    (AdaptiveInterval.new 5 60).increase.increase.get = 20 ∧
    (AdaptiveInterval.new 5 60).increase.increase.increase.get = 40 ∧
    (AdaptiveInterval.new 5 60).increase.increase.increase.increase.get = 60 ∧
    (∀ ops : List IntervalOp,
      (applyIntervalOps (AdaptiveInterval.new 5 60) ops).reset.get = 5) ∧
    ∀ ops : List IntervalOp,
      5 ≤ (applyIntervalOps (AdaptiveInterval.new 5 60) ops).get ∧
      (applyIntervalOps (AdaptiveInterval.new 5 60) ops).get ≤ 60 := by
  refine ⟨rfl, rfl, rfl, rfl, rfl, ?_, ?_⟩
  · intro ops
    have h := applyIntervalOps_bounds ops (AdaptiveInterval.new 5 60) rfl rfl
      (by simp [AdaptiveInterval.new]) (by simp [AdaptiveInterval.new])
    simp [AdaptiveInterval.reset, AdaptiveInterval.get, h.1]
  · intro ops
    have h := applyIntervalOps_bounds ops (AdaptiveInterval.new 5 60) rfl rfl
      (by simp [AdaptiveInterval.new]) (by simp [AdaptiveInterval.new])
    exact ⟨h.2.2.1, h.2.2.2⟩

-- ── C9: idempotent delivery (upsert by id) ───────────────────────────────────

/-- C9: `save_message` is an upsert keyed by id: saving the same message twice
equals saving it once, and after a save exactly one stored row has that id. -/
theorem save_message_idempotent (db : List Message) (m : Message) :
    save_message (save_message db m) m = save_message db m ∧
    ((save_message db m).filter fun x => x.id == m.id).length = 1 := by
  constructor
  · simp [save_message, List.filter_append, List.filter_filter, Bool.and_self]
  · simp [save_message, List.filter_append, List.filter_filter]

-- ── C2: conversation id derivation and symmetry ──────────────────────────────

/-- C2: `generate_conversation_queue_id` is symmetric in its two arguments,
and its value is the hex encoding of the first 16 bytes of the SHA-256 digest
of the lexicographically smaller hex string concatenated with the larger. -/
theorem conversation_queue_id_claim (P : Prims) (p1 p2 : String) :
    generate_conversation_queue_id P p1 p2 = generate_conversation_queue_id P p2 p1 ∧
    generate_conversation_queue_id P p1 p2 =
      .ok (to_hex ((P.sha256 (min p1 p2 ++ max p1 p2)).take 16)) := by
  rcases lt_trichotomy p1 p2 with h | h | h
  · refine ⟨?_, ?_⟩
    · simp [generate_conversation_queue_id, h, lt_asymm h]
    · simp [generate_conversation_queue_id, h, min_eq_left h.le, max_eq_right h.le]
  · subst h
    exact ⟨rfl, by simp [generate_conversation_queue_id]⟩
  · refine ⟨?_, ?_⟩
    · simp [generate_conversation_queue_id, h, lt_asymm h]
    · simp [generate_conversation_queue_id, lt_asymm h,
        min_eq_right h.le, max_eq_left h.le]

-- ── C3: own-message skip ─────────────────────────────────────────────────────

/-- C3: any envelope whose first 32 bytes equal the local signing public key
is rejected with the distinguished "Skipping own message" condition.  The
theorem holds for an arbitrary primitive bundle `P` (only its base64 decoding
of this blob is pinned), so the outcome does not depend on signature
verification or decryption — the check happens before them.  The delivery
loop's disposition for such a blob emits no effect at all: nothing is
persisted, nothing pushed, nothing deleted. -/
theorem own_message_skip (P : Prims) (parsePayload : Bytes → Option PayloadJson)
    (saveOk : Message → Bool) (queue_id : String) (kp : Keypair)
    (sm : ServerMessage) (rest : Bytes)
    (hlen : kp.sign_pk.length = 32)
    (hdec : P.b64decode sm.data = some (kp.sign_pk ++ rest)) :
    process_message P parsePayload sm queue_id kp = .error "Skipping own message" ∧
    process_one P parsePayload saveOk queue_id kp sm = ([], 0) := by
  have hopen : open_envelope P sm.data kp = .error "Skipping own message" := by
    simp [open_envelope, hdec, hlen, take_append_len rest hlen]
  have hpm : process_message P parsePayload sm queue_id kp =
      .error "Skipping own message" := by
    unfold process_message
    rw [hopen]
    rfl
  refine ⟨hpm, ?_⟩
  simp [process_one, hpm]

/-- C3 witness: a concrete blob starting with identity A's signing key,
processed by A itself. -/
theorem own_message_skip_witness :
    process_message toyPrims parsePayloadW
      { id := "m1", data := kpA.sign_pk ++ [1, 2, 3] } "q" kpA =
      .error "Skipping own message" ∧
    process_one toyPrims parsePayloadW (fun _ => true) "q" kpA
      { id := "m1", data := kpA.sign_pk ++ [1, 2, 3] } = ([], 0) :=
  own_message_skip toyPrims parsePayloadW (fun _ => true) "q" kpA
    { id := "m1", data := kpA.sign_pk ++ [1, 2, 3] } [1, 2, 3] (by decide) rfl

-- ── C4: delete only after persist; independent per-blob disposition ──────────

/-- C4: in one poll cycle the effects of the batch are exactly the
concatenation of each blob's own effects (one blob's failure never aborts the
rest), and a relay delete for an id is emitted only when that blob's envelope
opened successfully and the resulting message was persisted — so on
persistence failure, own-message, or signature/decryption failure the blob is
never deleted. -/
theorem delete_only_after_persist (P : Prims)
    (parsePayload : Bytes → Option PayloadJson) (saveOk : Message → Bool)
    (queue_id : String) (kp : Keypair) (msgs : List ServerMessage) :
    (poll_queue_run P parsePayload saveOk queue_id kp msgs).1 =
      msgs.flatMap (fun sm => (process_one P parsePayload saveOk queue_id kp sm).1) ∧
    (poll_queue_run P parsePayload saveOk queue_id kp msgs).2 =
      (msgs.map fun sm => (process_one P parsePayload saveOk queue_id kp sm).2).sum ∧
    ∀ sm mid,
      RelayAction.delete mid ∈ (process_one P parsePayload saveOk queue_id kp sm).1 →
      mid = sm.id ∧ ∃ m, process_message P parsePayload sm queue_id kp = .ok m ∧
        saveOk m = true ∧
        RelayAction.save m ∈ (process_one P parsePayload saveOk queue_id kp sm).1 := by
  refine ⟨?_, ?_, ?_⟩
  · induction msgs with
    | nil => rfl
    | cons sm rest ih => simp [poll_queue_run, ih]
  · induction msgs with
    | nil => rfl
    | cons sm rest ih => simp [poll_queue_run, ih]
  · intro sm mid h
    rcases hpm : process_message P parsePayload sm queue_id kp with e | m
    · simp [process_one, hpm] at h
    · rcases hs : saveOk m with _ | _
      · simp [process_one, hpm, hs] at h
      · have hmid : mid = sm.id := by
          simp [process_one, hpm, hs] at h
          exact h
        refine ⟨hmid, m, rfl, hs, ?_⟩
        simp [process_one, hpm, hs]


/-- C4 witness: a concrete two-blob batch in which the first blob is the
sender's own message (kept on the relay) and the second fails to decode. -/
theorem delete_only_after_persist_witness :
    (poll_queue_run toyPrims parsePayloadW (fun _ => true) "q" kpA
        [{ id := "m1", data := kpA.sign_pk ++ [1] }, { id := "m2", data := [9] }]).1 =
      [{ id := "m1", data := kpA.sign_pk ++ [1] },
        { id := "m2", data := ([9] : Bytes) }].flatMap
        (fun sm => (process_one toyPrims parsePayloadW (fun _ => true) "q" kpA sm).1) ∧
    (poll_queue_run toyPrims parsePayloadW (fun _ => true) "q" kpA
        [{ id := "m1", data := kpA.sign_pk ++ [1] }, { id := "m2", data := [9] }]).2 =
      ([{ id := "m1", data := kpA.sign_pk ++ [1] },
        { id := "m2", data := ([9] : Bytes) }].map fun sm =>
          (process_one toyPrims parsePayloadW (fun _ => true) "q" kpA sm).2).sum ∧
    ∀ sm mid,
      RelayAction.delete mid ∈
        (process_one toyPrims parsePayloadW (fun _ => true) "q" kpA sm).1 →
      mid = sm.id ∧ ∃ m,
        process_message toyPrims parsePayloadW sm "q" kpA = .ok m ∧
        (fun _ => true) m = true ∧
        RelayAction.save m ∈
          (process_one toyPrims parsePayloadW (fun _ => true) "q" kpA sm).1 :=
  delete_only_after_persist toyPrims parsePayloadW (fun _ => true) "q" kpA
    [{ id := "m1", data := kpA.sign_pk ++ [1] }, { id := "m2", data := [9] }]

-- ── C6: session attach ───────────────────────────────────────────────────────

/-- C6 counterexample: attaching a session while the adaptive interval sits at
20 seconds pushes TWO `PollingInterval` events — first the stored
`IpcState.current_interval_secs` (initialized to 60 and never updated), then
the reset minimum from the polling loop — so it is not the case that exactly
one event carrying the current interval value (20) is pushed. -/
theorem session_attach_counterexample :
    (session_attach 60 pollStateEx).2 =
      [.pollingInterval 60, .pollingInterval 5] ∧
    (session_attach 60 pollStateEx).2 ≠
      [.pollingInterval pollStateEx.fast_interval.get] := by
  decide

/-- C6 amended: whenever a session attaches, two `PollingInterval` events are
pushed to it — one from the accept loop carrying the stored
`IpcState.current_interval_secs` field and one from the polling loop carrying
the reset minimum interval — the unread counter is cleared to zero, the
connection is marked attached, and the adaptive interval is reset to its
minimum. -/
theorem session_attach_amended (ipc_current : Nat) (s : PollLoopState) :
    (session_attach ipc_current s).2 =
      [.pollingInterval ipc_current, .pollingInterval s.fast_interval.min_secs] ∧
    (session_attach ipc_current s).1.unread = 0 ∧
    (session_attach ipc_current s).1.tui_connected = true ∧
    (session_attach ipc_current s).1.fast_interval.get = s.fast_interval.min_secs :=
  ⟨rfl, rfl, rfl, rfl⟩

-- ── C7: SendMessage contract ─────────────────────────────────────────────────

/-- C7: for a SendMessage with an available identity and a peer key that
decodes to 32 bytes, the handler persists a local message with status
`sending` and `is_outbound = true` (returned in `savedMsg`, produced before
the network task exists), immediately returns the single `MessageSent` event,
and hands back a detached post task that on completion only updates that
message's status to `sent` (success) or `failed` (failure), emitting no
protocol event. -/
theorem send_message_contract (P : Prims)
    (payloadBytes : String → Int → String → Option Bytes) (dbSaveOk : Message → Bool)
    (queue_id plaintext peer_encrypt_pk : String) (kp : Keypair) (timestamp : Int)
    (nonce : Bytes) (local_id : String) (rpk pb : Bytes)
    (hpk : from_hex peer_encrypt_pk = .ok rpk) (hpkl : rpk.length = 32)
    (hsk : kp.encrypt_sk.length = 32) (hss : kp.sign_sk.length = 32)
    (hpb : payloadBytes plaintext timestamp (to_hex kp.encrypt_pk) = some pb)
    (hsave : dbSaveOk (outbound_message local_id queue_id plaintext timestamp) = true) :
    (handle_send_message P payloadBytes dbSaveOk queue_id plaintext
        peer_encrypt_pk (some kp) timestamp nonce local_id).events = [.messageSent] ∧
    (handle_send_message P payloadBytes dbSaveOk queue_id plaintext
        peer_encrypt_pk (some kp) timestamp nonce local_id).savedMsg =
      some (outbound_message local_id queue_id plaintext timestamp) ∧
    ((handle_send_message P payloadBytes dbSaveOk queue_id plaintext
        peer_encrypt_pk (some kp) timestamp nonce local_id).task.map
      fun t => t.msgId) = some local_id ∧
    ((handle_send_message P payloadBytes dbSaveOk queue_id plaintext
        peer_encrypt_pk (some kp) timestamp nonce local_id).task.map
      fun t => send_task_complete t true) =
      some ({ id := local_id, status := "sent" }, []) ∧
    ((handle_send_message P payloadBytes dbSaveOk queue_id plaintext
        peer_encrypt_pk (some kp) timestamp nonce local_id).task.map
      fun t => send_task_complete t false) =
      some ({ id := local_id, status := "failed" }, []) := by
  have henc : encrypt_message P nonce pb rpk kp.encrypt_sk =
      .ok (nonce ++ P.aeadEnc (P.dh kp.encrypt_sk rpk) nonce pb) := by
    simp [encrypt_message, hpkl, hsk]
  have hsig : ∀ m : Bytes, sign_message P m kp.sign_sk =
      .ok (P.edSign kp.sign_sk m ++ m) := by
    intro m
    simp [sign_message, hss]
  unfold outbound_message at hsave
  refine ⟨?_, ?_, ?_, ?_, ?_⟩
  · simp [handle_send_message, hpk, hpb, henc, hsig, hsave]
  · simp [handle_send_message, outbound_message, hpk, hpb, henc, hsig, hsave]
  · simp [handle_send_message, hpk, hpb, henc, hsig, hsave]
  · simp [handle_send_message, hpk, hpb, henc, hsig, hsave, send_task_complete]
  · simp [handle_send_message, hpk, hpb, henc, hsig, hsave, send_task_complete]

/-- C7 witness: concrete send through the toy primitives. -/
theorem send_message_contract_witness :
    (handle_send_message toyPrims payloadBytesW (fun _ => true) "q" "hi"
        peerPkHexW (some kpA) 1 nonceW "uuid-1").events = [.messageSent] ∧
    (handle_send_message toyPrims payloadBytesW (fun _ => true) "q" "hi"
        peerPkHexW (some kpA) 1 nonceW "uuid-1").savedMsg =
      some (outbound_message "uuid-1" "q" "hi" 1) ∧
    ((handle_send_message toyPrims payloadBytesW (fun _ => true) "q" "hi"
        peerPkHexW (some kpA) 1 nonceW "uuid-1").task.map
      fun t => t.msgId) = some "uuid-1" ∧
    ((handle_send_message toyPrims payloadBytesW (fun _ => true) "q" "hi"
        peerPkHexW (some kpA) 1 nonceW "uuid-1").task.map
      fun t => send_task_complete t true) =
      some ({ id := "uuid-1", status := "sent" }, []) ∧
    ((handle_send_message toyPrims payloadBytesW (fun _ => true) "q" "hi"
        peerPkHexW (some kpA) 1 nonceW "uuid-1").task.map
      fun t => send_task_complete t false) =
      some ({ id := "uuid-1", status := "failed" }, []) :=
  send_message_contract toyPrims payloadBytesW (fun _ => true) "q" "hi"
    peerPkHexW kpA 1 nonceW "uuid-1" (List.replicate 32 0) [1, 2, 3]
    rfl (by decide) (by decide) (by decide) rfl rfl

-- ── C8 / C10: ImportContact ──────────────────────────────────────────────────

theorem handle_import_contact_ok (P : Prims) (kp : Keypair) (peers : List Peer)
    (c : ContactJson) (n e s : String)
    (hn : c.name = some n) (he : c.encrypt_pk = some e) (hs : c.sign_pk = some s)
    (hfe : ∃ bs, from_hex e = .ok bs) (hfs2 : ∃ bs, from_hex s = .ok bs)
    (hown : e ≠ to_hex kp.encrypt_pk)
    (hdup : ∀ p ∈ peers, p.encrypt_pk ≠ e) :
    handle_import_contact P (some c) (some kp) peers true =
      { events := [.contactImported
          { name := n, encrypt_pk := e, sign_pk := s,
            queue_id := conversation_queue_id_val P (to_hex kp.encrypt_pk) e }],
        newPeers := save_peer peers
          { name := n, encrypt_pk := e, sign_pk := s,
            queue_id := conversation_queue_id_val P (to_hex kp.encrypt_pk) e } } := by
  obtain ⟨be, hbe⟩ := hfe
  obtain ⟨bs2, hbs2⟩ := hfs2
  have hany : (peers.any fun p => p.encrypt_pk == e) = false := by
    rw [List.any_eq_false]
    intro p hp
    simpa using hdup p hp
  simp [handle_import_contact, hn, he, hs, hbe, hbs2, hany, Ne.symm hown,
    generate_conversation_queue_id, conversation_queue_id_val]

/-- C8: with an identity available and the peers file writable, ImportContact
returns `ContactImported` — persisting a peer whose queue id is the
conversation id derived from the local and imported encryption public keys —
exactly when the JSON parses with all three fields present, both keys are
well-formed hex, the key is not the local identity's own, and no peer with
that key already exists; in every other case it returns a single `Error`
event and the peer list is unchanged. -/
theorem import_contact_validation (P : Prims) (kp : Keypair) (peers : List Peer)
    (parsed : Option ContactJson) :
    (importValid kp peers parsed →
      ∃ peer, handle_import_contact P parsed (some kp) peers true =
        { events := [.contactImported peer], newPeers := save_peer peers peer } ∧
        generate_conversation_queue_id P (to_hex kp.encrypt_pk) peer.encrypt_pk =
          .ok peer.queue_id) ∧
    (¬ importValid kp peers parsed →
      (∃ msg, (handle_import_contact P parsed (some kp) peers true).events =
        [.errorEv msg]) ∧
      (handle_import_contact P parsed (some kp) peers true).newPeers = peers) := by
  constructor
  · rintro ⟨c, n, e, s, rfl, hn, he, hs, hfe, hfs2, hown, hdup⟩
    refine ⟨_, handle_import_contact_ok P kp peers c n e s hn he hs hfe hfs2 hown hdup, ?_⟩
    simp [generate_conversation_queue_id, conversation_queue_id_val]
  · intro hnv
    rcases parsed with _ | c
    · exact ⟨⟨"Invalid JSON", rfl⟩, rfl⟩
    rcases hn : c.name with _ | n
    · refine ⟨⟨"Missing 'name' field", ?_⟩, ?_⟩ <;> simp [handle_import_contact, hn]
    rcases he : c.encrypt_pk with _ | e
    · refine ⟨⟨"Missing 'encrypt_pk' field", ?_⟩, ?_⟩ <;>
        simp [handle_import_contact, hn, he]
    rcases hs : c.sign_pk with _ | s
    · refine ⟨⟨"Missing 'sign_pk' field", ?_⟩, ?_⟩ <;>
        simp [handle_import_contact, hn, he, hs]
    rcases hbe : from_hex e with eerr | be
    · refine ⟨⟨"Invalid encrypt_pk: " ++ eerr, ?_⟩, ?_⟩ <;>
        simp [handle_import_contact, hn, he, hs, hbe]
    rcases hbs2 : from_hex s with serr | bs2
    · refine ⟨⟨"Invalid sign_pk: " ++ serr, ?_⟩, ?_⟩ <;>
        simp [handle_import_contact, hn, he, hs, hbe, hbs2]
    by_cases hc : to_hex kp.encrypt_pk = e
    · refine ⟨⟨"Cannot import your own contact", ?_⟩, ?_⟩ <;>
        simp [handle_import_contact, hn, he, hs, hbe, hbs2, hc]
    by_cases hany : (peers.any fun p => p.encrypt_pk == e) = true
    · refine ⟨⟨"Contact already exists", ?_⟩, ?_⟩ <;>
        simp [handle_import_contact, hn, he, hs, hbe, hbs2, hc, hany]
    · exfalso
      apply hnv
      refine ⟨c, n, e, s, rfl, hn, he, hs, ⟨be, hbe⟩, ⟨bs2, hbs2⟩, Ne.symm hc, ?_⟩
      intro p hp hpe
      apply hany
      rw [List.any_eq_true]
      exact ⟨p, hp, by simp [hpe]⟩

/-- C8 witness: the validation theorem applied at a concrete import against
an empty registry. -/
theorem import_contact_validation_witness :
    (importValid kpA [] (some contactW) →
      ∃ peer, handle_import_contact toyPrims (some contactW) (some kpA) [] true =
        { events := [.contactImported peer], newPeers := save_peer [] peer } ∧
        generate_conversation_queue_id toyPrims (to_hex kpA.encrypt_pk) peer.encrypt_pk =
          .ok peer.queue_id) ∧
    (¬ importValid kpA [] (some contactW) →
      (∃ msg, (handle_import_contact toyPrims (some contactW)
          (some kpA) [] true).events = [.errorEv msg]) ∧
      (handle_import_contact toyPrims (some contactW)
          (some kpA) [] true).newPeers = []) :=
  import_contact_validation toyPrims kpA [] (some contactW)

/-- C10: an ImportContact whose encryption key is new but whose name matches
an existing peer succeeds with `ContactImported`, and the persisted peer list
replaces the old same-named peer: the old peer is gone, the new peer is
present, and exactly one peer with that name remains. -/
theorem import_replaces_peer_with_same_name (P : Prims) (kp : Keypair)
    (peers : List Peer) (c : ContactJson) (n e s : String) (q : Peer)
    (hn : c.name = some n) (he : c.encrypt_pk = some e) (hs : c.sign_pk = some s)
    (hfe : ∃ bs, from_hex e = .ok bs) (hfs2 : ∃ bs, from_hex s = .ok bs)
    (hown : e ≠ to_hex kp.encrypt_pk)
    (hdup : ∀ p ∈ peers, p.encrypt_pk ≠ e)
    (hq : q ∈ peers) (hqname : q.name = n) :
    ∃ peer, (handle_import_contact P (some c) (some kp) peers true).events =
        [.contactImported peer] ∧ peer.name = n ∧ peer.encrypt_pk = e ∧
      (handle_import_contact P (some c) (some kp) peers true).newPeers =
        save_peer peers peer ∧
      q ∉ (handle_import_contact P (some c) (some kp) peers true).newPeers ∧
      peer ∈ (handle_import_contact P (some c) (some kp) peers true).newPeers ∧
      (((handle_import_contact P (some c) (some kp) peers true).newPeers.filter
        fun p => p.name == n).length = 1) := by
  have hok := handle_import_contact_ok P kp peers c n e s hn he hs hfe hfs2 hown hdup
  rw [hok]
  refine ⟨_, rfl, rfl, rfl, rfl, ?_, ?_, ?_⟩
  · intro hmem
    rw [save_peer, List.mem_append] at hmem
    rcases hmem with hmem | hmem
    · rw [List.mem_filter] at hmem
      simp [hqname] at hmem
    · have : q.encrypt_pk = e := by
        rw [List.mem_singleton] at hmem
        rw [hmem]
      exact hdup q hq this
  · simp [save_peer]
  · simp [save_peer, List.filter_append, List.filter_filter]

/-- C10 witness: importing "Bob" with a fresh key while a peer named "Bob"
with a different key exists. -/
theorem import_replaces_peer_with_same_name_witness :
    ∃ peer, (handle_import_contact toyPrims (some contactW)
        (some kpA) [peerOldW] true).events = [.contactImported peer] ∧
      peer.name = "Bob" ∧ peer.encrypt_pk = "00ff" ∧
      (handle_import_contact toyPrims (some contactW)
        (some kpA) [peerOldW] true).newPeers = save_peer [peerOldW] peer ∧
      peerOldW ∉ (handle_import_contact toyPrims (some contactW)
        (some kpA) [peerOldW] true).newPeers ∧
      peer ∈ (handle_import_contact toyPrims (some contactW)
        (some kpA) [peerOldW] true).newPeers ∧
      (((handle_import_contact toyPrims (some contactW)
        (some kpA) [peerOldW] true).newPeers.filter
          fun p => p.name == "Bob").length = 1) :=
  import_replaces_peer_with_same_name toyPrims kpA [peerOldW] contactW
    "Bob" "00ff" "ab" peerOldW rfl rfl rfl ⟨[0, 255], rfl⟩ ⟨[171], rfl⟩
    (by decide) (by decide) (by decide) rfl

-- ── C1: envelope round-trip ──────────────────────────────────────────────────

theorem except_bind_ok {α β : Type} (a : α) (f : α → Except String β) :
    (Except.ok a >>= f) = f a := rfl

/-- C1: for identities A and B with well-formed 32-byte key material (public
halves derived from the secret halves, distinct signing keys) and a 24-byte
nonce, sealing a plaintext from A to B as the send path does and opening the
base64-encoded envelope as B as `process_message` does recovers exactly the
original plaintext bytes. -/
theorem not_append_length_lt {α : Type} (l1 l2 : List α) {n : Nat}
    (h : l1.length = n) : ¬ (l1 ++ l2).length < n := by
  rw [List.length_append, h]
  omega

theorem seal_envelope_eq (P : Prims) (kp : Keypair)
    (rpk nonce pt encrypted signed : Bytes)
    (h1 : encrypt_message P nonce pt rpk kp.encrypt_sk = .ok encrypted)
    (h2 : sign_message P (kp.encrypt_pk ++ encrypted) kp.sign_sk = .ok signed) :
    seal_envelope P kp rpk nonce pt = .ok (kp.sign_pk ++ signed) := by
  unfold seal_envelope
  rw [h1, except_bind_ok]
  simp only [h2, except_bind_ok]

theorem open_envelope_decode (P : Prims) (data : Bytes) (kp : Keypair)
    (full : Bytes) (h : P.b64decode data = some full) :
    open_envelope P data kp =
      (if full.length < 32 then .error "Message too short"
       else if full.take 32 = kp.sign_pk then .error "Skipping own message"
       else (verify_signature P (full.drop 32) (full.take 32)) >>= fun unsigned =>
         if unsigned.length < 32 then .error "Unsigned message too short"
         else decrypt_message P (unsigned.drop 32) (unsigned.take 32) kp.encrypt_sk) := by
  unfold open_envelope
  rw [h]

/-- C1: for identities A and B with well-formed 32-byte key material (public
halves derived from the secret halves, distinct signing keys) and a 24-byte
nonce, sealing a plaintext from A to B as the send path does and opening the
base64-encoded envelope as B as `process_message` does recovers exactly the
original plaintext bytes. -/
theorem envelope_roundtrip (P : Prims) (A B : Keypair) (pt nonce : Bytes)
    (hAe : A.encrypt_pk = P.pkOfEncrypt A.encrypt_sk)
    (hAel : A.encrypt_pk.length = 32) (hAsl : A.encrypt_sk.length = 32)
    (hAs : A.sign_pk = P.pkOfSign A.sign_sk)
    (hAspl : A.sign_pk.length = 32) (hAssl : A.sign_sk.length = 32)
    (hBe : B.encrypt_pk = P.pkOfEncrypt B.encrypt_sk)
    (hBel : B.encrypt_pk.length = 32) (hBsl : B.encrypt_sk.length = 32)
    (hnl : nonce.length = 24)
    (hne : A.sign_pk ≠ B.sign_pk) :
    ∃ env, seal_envelope P A B.encrypt_pk nonce pt = .ok env ∧
      open_envelope P (P.b64encode env) B = .ok pt := by
  have hshared : P.dh B.encrypt_sk A.encrypt_pk = P.dh A.encrypt_sk B.encrypt_pk := by
    rw [hAe, P.dh_comm B.encrypt_sk A.encrypt_sk, ← hBe]
  have henc : encrypt_message P nonce pt B.encrypt_pk A.encrypt_sk =
      .ok (nonce ++ P.aeadEnc (P.dh A.encrypt_sk B.encrypt_pk) nonce pt) := by
    simp [encrypt_message, hBel, hAsl]
  have hsig : sign_message P
      (A.encrypt_pk ++ (nonce ++ P.aeadEnc (P.dh A.encrypt_sk B.encrypt_pk) nonce pt))
      A.sign_sk =
      .ok (P.edSign A.sign_sk
          (A.encrypt_pk ++ (nonce ++ P.aeadEnc (P.dh A.encrypt_sk B.encrypt_pk) nonce pt)) ++
        (A.encrypt_pk ++ (nonce ++ P.aeadEnc (P.dh A.encrypt_sk B.encrypt_pk) nonce pt))) := by
    simp [sign_message, hAssl]
  have hsiglen : (P.edSign A.sign_sk
      (A.encrypt_pk ++ (nonce ++ P.aeadEnc (P.dh A.encrypt_sk B.encrypt_pk) nonce pt))).length
      = 64 := P.edSign_length A.sign_sk _
  have hseal := seal_envelope_eq P A B.encrypt_pk nonce pt _ _ henc hsig
  refine ⟨_, hseal, ?_⟩
  have hver : verify_signature P
      (P.edSign A.sign_sk
          (A.encrypt_pk ++ (nonce ++ P.aeadEnc (P.dh A.encrypt_sk B.encrypt_pk) nonce pt)) ++
        (A.encrypt_pk ++ (nonce ++ P.aeadEnc (P.dh A.encrypt_sk B.encrypt_pk) nonce pt)))
      A.sign_pk =
      .ok (A.encrypt_pk ++ (nonce ++ P.aeadEnc (P.dh A.encrypt_sk B.encrypt_pk) nonce pt)) := by
    have hvk : P.vkValid A.sign_pk = true := by
      rw [hAs]; exact P.vkValid_pkOfSign A.sign_sk
    have hv : P.edVerify A.sign_pk
        (P.edSign A.sign_sk
          (A.encrypt_pk ++ (nonce ++ P.aeadEnc (P.dh A.encrypt_sk B.encrypt_pk) nonce pt)))
        (A.encrypt_pk ++ (nonce ++ P.aeadEnc (P.dh A.encrypt_sk B.encrypt_pk) nonce pt)) =
        true := by
      rw [hAs]; exact P.edVerify_edSign A.sign_sk _
    rw [verify_signature, if_neg (not_append_length_lt _ _ hsiglen)]
    rw [if_neg (by rw [hAspl]; omega : ¬ A.sign_pk.length ≠ 32)]
    rw [take_append_len _ hsiglen, drop_append_len _ hsiglen]
    rw [hvk]
    simp [hv]
  have hdecry : decrypt_message P
      (nonce ++ P.aeadEnc (P.dh A.encrypt_sk B.encrypt_pk) nonce pt)
      A.encrypt_pk B.encrypt_sk = .ok pt := by
    rw [decrypt_message, if_neg (not_append_length_lt _ _ hnl)]
    rw [if_neg (by rw [hAel]; omega : ¬ A.encrypt_pk.length ≠ 32)]
    rw [if_neg (by rw [hBsl]; omega : ¬ B.encrypt_sk.length ≠ 32)]
    rw [take_append_len _ hnl, drop_append_len _ hnl, hshared]
    simp only [P.aead_roundtrip]
  rw [open_envelope_decode P _ B _ (P.b64_roundtrip _)]
  rw [if_neg (not_append_length_lt _ _ hAspl)]
  rw [take_append_len _ hAspl, drop_append_len _ hAspl]
  rw [if_neg hne]
  rw [hver, except_bind_ok]
  rw [if_neg (not_append_length_lt _ _ hAel)]
  rw [take_append_len _ hAel, drop_append_len _ hAel]
  exact hdecry

/-- C1 witness: concrete round trip through the toy primitives. -/
theorem envelope_roundtrip_witness :
    ∃ env, seal_envelope toyPrims kpA kpB.encrypt_pk nonceW ptW = .ok env ∧
      open_envelope toyPrims (toyPrims.b64encode env) kpB = .ok ptW :=
  envelope_roundtrip toyPrims kpA kpB ptW nonceW rfl (by decide) (by decide)
    rfl (by decide) (by decide) rfl (by decide) (by decide) (by decide) (by decide)

end Trassenger
